import Mathlib

/-!
Verification development for the `async-json-rpc` crate: a shallow embedding
of the JSON-RPC client core (protocol objects, request builder, nonce
generator, HTTP header construction, error pipeline) together with theorems
settling the specification's claims.

Machine integers are modelled as `Nat` with explicit reduction modulo
`2 ^ 64` where the Rust code can wrap (`AtomicUsize::fetch_add`).
Fallible Rust code (`Result`) is modelled with `Except`; panicking code is
modelled with an explicit error channel.
-/

namespace AsyncJsonRpc

/-- Model of `serde_json::Value`: a JSON document tree.  Numbers are
modelled as integers (`serde_json::Number`'s float case is outside the
scope of the claims).  Object fields keep insertion order, as a list of
string-keyed pairs. -/
inductive Json where
  | null : Json
  | bool (b : Bool) : Json
  | num (n : Int) : Json
  | str (s : String) : Json
  | arr (xs : List Json) : Json
  | obj (fields : List (String × Json)) : Json

/-- Model of `serde_json::Error` (an opaque deserialization error carrying a
message). -/
structure JsonError where
  msg : String

/-- Model of `hyper::Error` (an opaque transport body error). -/
structure HyperError where
  msg : String

/-- Model of `objects.rs` `RpcError`: `{ code: i32, message: String, data:
Option<Value> }`. -/
structure RpcError where
  code : Int
  message : String
  data : Option Json

/-- Model of `objects.rs` `Request`: `{ method: String, params: Value, id:
Value, jsonrpc: String }`. -/
structure Request where
  method : String
  params : Json
  id : Json
  jsonrpc : String

/-- Model of `objects.rs` `RequestBuilder`: four optional accumulated
fields. -/
structure RequestBuilder where
  id : Option Json
  method : Option String
  params : Option Json
  json_rpc : Option String

/-- The `Default` derive on `RequestBuilder`: all fields start out unset. -/
def RequestBuilder.default : RequestBuilder :=
  { id := none, method := none, params := none, json_rpc := none }

/-- Model of `objects.rs` `IncompleteRequest`, the unit-like error returned
by `finish` when `method` or `id` is missing. -/
structure IncompleteRequest where

/-- Model of `Request::build()`: returns the default builder. -/
def Request.build : RequestBuilder :=
  RequestBuilder.default

/-- Model of the setter `RequestBuilder::method` (named `setMethod` here
because the Lean structure already has a field `method`): set the method,
last write wins. -/
def RequestBuilder.setMethod (b : RequestBuilder) (m : String) : RequestBuilder :=
  { b with method := some m }

/-- Model of the setter `RequestBuilder::id`: set the id, last write wins. -/
def RequestBuilder.setId (b : RequestBuilder) (i : Json) : RequestBuilder :=
  { b with id := some i }

/-- Model of the setter `RequestBuilder::params`: set the params, last
write wins. -/
def RequestBuilder.setParams (b : RequestBuilder) (p : Json) : RequestBuilder :=
  { b with params := some p }

/-- Model of the setter `RequestBuilder::jsonrpc`: set the version, last
write wins. -/
def RequestBuilder.setJsonrpc (b : RequestBuilder) (v : String) : RequestBuilder :=
  { b with json_rpc := some v }

/-- Model of `RequestBuilder::finish`, translated clause by clause from
`objects.rs` lines 61–86: the version defaults to `"2.0"`, the request is
produced only when both `id` and `method` are set, and `params` defaults to
JSON null. -/
def RequestBuilder.finish (b : RequestBuilder) : Except IncompleteRequest Request :=
  let jsonrpc := match b.json_rpc with
    | some jsonrpc => jsonrpc
    | none => "2.0"
  match b.id, b.method with
  | some id, some method =>
    match b.params with
    | some params => .ok { id, method, params, jsonrpc }
    | none => .ok { id, method, params := Json.null, jsonrpc }
  | _, _ => .error ⟨⟩

/-- Model of `objects.rs` `Response`: `{ result: Option<Value>, error:
Option<RpcError>, id: Value, jsonrpc: Option<String> }`. -/
structure Response where
  result : Option Json
  error : Option RpcError
  id : Json
  jsonrpc : Option String

/-- Model of `Response::into_result::<T>`: `self.result.map(serde_json::from_value)`.
The deserializer for the concrete `T` is passed explicitly as `dec`
(modelling `serde_json::from_value::<T>`). -/
def Response.intoResult {T : Type} (dec : Json → Except JsonError T)
    (r : Response) : Option (Except JsonError T) :=
  r.result.map dec

/-- Model of `Response::is_result`: `self.result.is_some()`. -/
def Response.isResult (r : Response) : Bool :=
  r.result.isSome

/-- Model of `Response::is_error`: `self.error.is_some()`. -/
def Response.isError (r : Response) : Bool :=
  r.error.isSome

/-- Model of the error taxonomy `Error<E>` from `clients/mod.rs` (the same
enum is duplicated in the historical variant `client.rs`). -/
inductive Error (E : Type) where
  | batchDuplicateResponseId (id : Json) : Error E
  | connection (e : E) : Error E
  | emptyBatch : Error E
  | json (e : JsonError) : Error E
  | nonceMismatch : Error E
  | versionMismatch : Error E
  | wrongBatchResponseId (id : Json) : Error E
  | wrongBatchResponseSize : Error E

/-- Model of `clients/http.rs` `ConnectionError<E>`: the HTTP-specific
transport error, tagging where in the dispatch the failure occurred. -/
inductive ConnectionError (E : Type) where
  | poll (e : E) : ConnectionError E
  | service (e : E) : ConnectionError E
  | body (e : HyperError) : ConnectionError E

/-- Model of `clients/http.rs` `Credentials`: `{ url, user: Option<String>,
password: Option<String> }`. -/
structure Credentials where
  url : String
  user : Option String
  password : Option String

/-- The wrap-around modulus of `AtomicUsize` on a 64-bit platform: `usize`
arithmetic (and in particular `fetch_add`) wraps modulo `2 ^ 64`. -/
def USIZE_MOD : Nat := 2 ^ 64

/-- Model of `AtomicUsize::fetch_add(1, ...)` on the nonce counter: returns
the previous value and the updated counter; the addition wraps around on
overflow (documented behaviour of `fetch_add`). -/
def fetchAddOne (nonce : Nat) : Nat × Nat :=
  (nonce, (nonce + 1) % USIZE_MOD)

/-- Model of `std::sync::atomic::Ordering`. -/
inductive AtomicOrdering where
  | relaxed
  | acquire
  | release
  | acqRel
  | seqCst

/-- Model of `AtomicUsize::load(order)`: per the Rust standard-library
contract, a load with `Ordering::Release` or `Ordering::AcqRel` panics; the
other orderings return the current value.  Panics are modelled as the
`.error` channel. -/
def atomicLoad (order : AtomicOrdering) (value : Nat) : Except String Nat :=
  match order with
  | .release => .error "there is no such thing as a release load"
  | .acqRel => .error "there is no such thing as an acquire-release load"
  | _ => .ok value

/-- Model of the mutable state owned by one logical `Client` (shared across
clones through the `Arc`): the value of the `AtomicUsize` nonce counter. -/
structure ClientState where
  nonce : Nat

/-- Model of `Client::next_nonce` (identical in `clients/http.rs` and
`client.rs`): `self.nonce.load(Ordering::AcqRel)`.  Returns the panic-or-
value outcome together with the (unchanged) state. -/
def ClientState.nextNonce (c : ClientState) : Except String Nat × ClientState :=
  (atomicLoad .acqRel c.nonce, c)

/-- Model of `RequestFactory::build_request` for `Client` (identical in
`clients/http.rs` lines 187–193 and `client.rs` lines 144–149):
`let id = Value::Number(self.nonce.fetch_add(1, Ordering::AcqRel).into());
Request::build().id(id)`. -/
def ClientState.buildRequest (c : ClientState) : RequestBuilder × ClientState :=
  let (old, new) := fetchAddOne c.nonce
  (Request.build.setId (Json.num (Int.ofNat old)), ⟨new⟩)

/-- The client state after `n` successive `build_request` calls starting
from a fresh client (`AtomicUsize::new(0)`). -/
def nonceAfter : Nat → Nat
  | 0 => 0
  | n + 1 => ((ClientState.buildRequest ⟨nonceAfter n⟩).2).nonce

/-- The builder returned by the `(k+1)`-st `build_request` call on a fresh
client. -/
def builderOfCall (k : Nat) : RequestBuilder :=
  ((⟨nonceAfter k⟩ : ClientState).buildRequest).1

/-- The numeric id placed into the builder returned by the `(k+1)`-st
`build_request` call on a fresh client: the value `fetch_add` returned,
i.e. the counter value before that call's increment. -/
def idOfCall (k : Nat) : Nat :=
  (fetchAddOne (nonceAfter k)).1


/-- The character of the standard base64 alphabet at index `n < 64`
(`A`–`Z`, `a`–`z`, `0`–`9`, `+`, `/`). -/
def base64Char (n : Nat) : Char :=
  if n < 26 then Char.ofNat (65 + n)
  else if n < 52 then Char.ofNat (97 + (n - 26))
  else if n < 62 then Char.ofNat (48 + (n - 52))
  else if n = 62 then '+'
  else '/'

/-- Model of `base64::encode`: RFC 4648 standard encoding with `=`
padding, three input bytes at a time. -/
def base64Encode : List UInt8 → String
  | [] => ""
  | [a] =>
    let n := a.toNat
    String.mk [base64Char (n / 4), base64Char (n % 4 * 16), '=', '=']
  | [a, b] =>
    let n := a.toNat * 256 + b.toNat
    String.mk [base64Char (n / 1024), base64Char (n / 16 % 64), base64Char (n % 16 * 4), '=']
  | a :: b :: c :: rest =>
    let n := a.toNat * 65536 + b.toNat * 256 + c.toNat
    String.mk [base64Char (n / 262144), base64Char (n / 4096 % 64),
      base64Char (n / 64 % 64), base64Char (n % 64)] ++ base64Encode rest

/-- The UTF-8 bytes of a string, as Rust's `String`/`str` store it. -/
def stringUtf8 (s : String) : List UInt8 :=
  s.data.flatMap String.utf8EncodeChar

/-- Model of the serde data model (the intermediate form a `Serialize`
implementation feeds to the JSON serializer): the cases reachable from
`Request`'s derived implementation and from `serde_json::Value`. -/
inductive SerValue where
  | unit : SerValue
  | bool (b : Bool) : SerValue
  | int (n : Int) : SerValue
  | str (s : String) : SerValue
  | seq (xs : List SerValue) : SerValue
  | map (kvs : List (SerValue × SerValue)) : SerValue

/-- A JSON string literal for `s`: quote and backslash are escaped; the
serializer's other escapes are not load-bearing for any claim. -/
def escapeJsonString (s : String) : String :=
  "\"" ++ String.join (s.data.map fun c =>
    if c = '"' then "\\\"" else if c = '\\' then "\\\\" else String.mk [c]) ++ "\""

/-- Model of the `serde_json` compact serializer on the serde data model.
This is the function behind `serde_json::to_vec`: it fails exactly where
the real serializer can, namely when a map key is not a string (the
`key must be a string` error); every other case is total. -/
def serializeSer : SerValue → Except String String
  | .unit => .ok "null"
  | .bool b => .ok (if b then "true" else "false")
  | .int n => .ok (toString n)
  | .str s => .ok (escapeJsonString s)
  | .seq xs => do
    let parts ← xs.attach.mapM fun x => serializeSer x.1
    .ok ("[" ++ String.intercalate "," parts ++ "]")
  | .map kvs => do
    let parts ← kvs.attach.mapM fun kv =>
      match kv.1.1 with
      | SerValue.str k => do
        let vs ← serializeSer kv.1.2
        pure (escapeJsonString k ++ ":" ++ vs)
      | _ => Except.error "key must be a string"
    .ok ("\x7b" ++ String.intercalate "," parts ++ "\x7d")
decreasing_by
  · have := List.sizeOf_lt_of_mem x.2
    simp [SerValue.seq.sizeOf_spec]
    omega
  · have h1 := List.sizeOf_lt_of_mem kv.2
    have h2 : sizeOf kv.1.2 < sizeOf kv.1 := by
      cases kv.1
      simp
    simp [SerValue.map.sizeOf_spec]
    omega

/-- Model of `serde_json::Value`'s `Serialize` implementation: the value
tree fed to the serializer; object keys are strings by construction. -/
def serValueOfJson : Json → SerValue
  | .null => .unit
  | .bool b => .bool b
  | .num n => .int n
  | .str s => .str s
  | .arr xs => .seq (xs.attach.map fun x => serValueOfJson x.1)
  | .obj fs => .map (fs.attach.map fun kv => (SerValue.str kv.1.1, serValueOfJson kv.1.2))
decreasing_by
  · have := List.sizeOf_lt_of_mem x.2
    simp [Json.arr.sizeOf_spec]
    omega
  · have h1 := List.sizeOf_lt_of_mem kv.2
    have h2 : sizeOf kv.1.2 < sizeOf kv.1 := by
      cases kv.1
      simp
    simp [Json.obj.sizeOf_spec]
    omega

/-- Model of the derived `Serialize` for `Request`: a struct serializes as
a map with its field names (string keys) in declaration order. -/
def requestToSer (r : Request) : SerValue :=
  .map [(.str "method", serValueOfJson (.str r.method)),
        (.str "params", serValueOfJson r.params),
        (.str "id", serValueOfJson r.id),
        (.str "jsonrpc", serValueOfJson (.str r.jsonrpc))]

/-- Model of `serde_json::to_vec(&request)` as used at the top of
`Client::call`: feed the derived serialization of the request to the JSON
serializer. -/
def requestToVec (r : Request) : Except String String :=
  serializeSer (requestToSer r)

/-- Model of the outbound `hyper::Request<Body>`: POST to the credential
url, a header list in insertion order, and the serialized body. -/
structure HttpRequest where
  httpMethod : String
  uri : String
  headers : List (String × String)
  body : String

/-- Model of the inbound `hyper::Response<Body>`: what matters to the
client is the outcome of collecting the full body (`hyper::body::to_bytes`),
which either yields the response bytes or fails with a `hyper::Error`. -/
structure HttpResponse where
  body : Except HyperError (List UInt8)

/-- Model of the request-construction prefix of `Client::call`
(`clients/http.rs` lines 130–153): serialize the request (the `unwrap`'s
failure branch is modelled by an empty body and proved unreachable
separately), open a POST builder on `credentials.url`, attach
`Authorization: Basic base64(user:password)` when a user is configured
(password defaulting to the empty string), then attach
`Content-Type: application/json` and the body. -/
def makeHttpRequest (credentials : Credentials) (request : Request) : HttpRequest :=
  let json_raw := (requestToVec request).toOption.getD ""
  let authHeaders : List (String × String) :=
    match credentials.user with
    | some user =>
      let pass_str := match credentials.password with
        | some p => p
        | none => ""
      [("authorization", "Basic " ++ base64Encode (stringUtf8 (user ++ ":" ++ pass_str)))]
    | none => []
  { httpMethod := "POST"
    uri := credentials.url
    headers := authHeaders ++ [("content-type", "application/json")]
    body := json_raw }

/-- Model of the inner tower `Service` held by a `Client`: a readiness
outcome (`poll_ready`) and a response function (`call`), both with the
transport's own error type `E`. -/
structure InnerService (E : Type) where
  readiness : Except E Unit
  respond : HttpRequest → Except E HttpResponse

/-- Model of `Client::poll_ready` (`clients/http.rs` lines 122–127):
forward the inner service's readiness, wrapping a failure as
`Error::Connection(ConnectionError::Poll(e))`. -/
def Client.pollReady {E : Type} (svc : InnerService E) :
    Except (Error (ConnectionError E)) Unit :=
  (svc.readiness.mapError ConnectionError.poll).mapError Error.connection

/-- Model of the response half of `Client::call` (`clients/http.rs` lines
155–169): dispatch the built HTTP request, wrapping a service failure as
`Connection(Service(e))`; collect the body, wrapping a failure as
`Connection(Body(e))`; deserialize the bytes as a `Response` with `des`
(modelling `serde_json::from_slice`), wrapping a failure as `Json(e)`. -/
def Client.call {E : Type} (des : List UInt8 → Except JsonError Response)
    (credentials : Credentials) (svc : InnerService E) (request : Request) :
    Except (Error (ConnectionError E)) Response :=
  let httpReq := makeHttpRequest credentials request
  match svc.respond httpReq with
  | .error e => .error (.connection (.service e))
  | .ok response =>
    match response.body with
    | .error e => .error (.connection (.body e))
    | .ok bytes =>
      match des bytes with
      | .error e => .error (.json e)
      | .ok r => .ok r

/-- Model of `Client::send` (`clients/http.rs` lines 179–185), which is
`self.clone().oneshot(request)`: tower's `oneshot` first waits for
`poll_ready`, returning its error without dispatching anything when
readiness fails, and only then runs `call`.  The second component records
the HTTP requests actually dispatched to the inner service. -/
def Client.send {E : Type} (des : List UInt8 → Except JsonError Response)
    (credentials : Credentials) (svc : InnerService E) (request : Request) :
    Except (Error (ConnectionError E)) Response × List HttpRequest :=
  match Client.pollReady svc with
  | .error e => (.error e, [])
  | .ok _ => (Client.call des credentials svc request, [makeHttpRequest credentials request])

/-- Model of a constructed `Client<S>` (`clients/http.rs` lines 59–64):
credentials plus the nonce counter (fresh at 0) plus the inner service. -/
structure ClientModel (S : Type) where
  credentials : Credentials
  nonce : Nat
  inner_service : S

/-- Model of `Client::from_service` (`clients/http.rs` lines 70–86).  The
result is wrapped in `Except` so that a rejected or asserted-against
construction could be expressed; the source performs no check of any kind,
so the model always succeeds. -/
def Client.fromService {S : Type} (service : S) (url : String)
    (user password : Option String) : Except String (ClientModel S) :=
  .ok { credentials := { url, user, password }, nonce := 0, inner_service := service }

/-- Model of `Client::new` (`clients/http.rs` lines 96–98): delegates to
`from_service` with a fresh hyper client (modelled as an opaque token). -/
def Client.newModel (url : String) (user password : Option String) :
    Except String (ClientModel Unit) :=
  Client.fromService () url user password

/-- Model of `Client::new_tls` (`clients/http.rs` lines 103–107): also
delegates to `from_service`, with a TLS-capable hyper client. -/
def Client.newTls (url : String) (user password : Option String) :
    Except String (ClientModel Unit) :=
  Client.fromService () url user password

/-- Model of `debug_assert!`: panics (the `.error` channel) exactly when
debug assertions are compiled in and the condition is false. -/
def debugAssert (enabled : Bool) (cond : Bool) : Except String Unit :=
  if enabled && !cond then .error "debug assertion failed" else .ok ()

/-- Model of the historical variant `client.rs` `HttpClient`. -/
structure HttpClientModel (C : Type) where
  url : String
  user : Option String
  password : Option String
  nonce : Nat
  inner_client : C

/-- Model of `HttpClient::new` (`client.rs` lines 54–64):
`debug_assert!(password.is_none() || user.is_some())`, then construct.
`dbg` says whether debug assertions are compiled in (so in release builds
the check vanishes). -/
def HttpClient.newModel {C : Type} (dbg : Bool) (inner : C) (url : String)
    (user password : Option String) : Except String (HttpClientModel C) := do
  let _ ← debugAssert dbg (password.isNone || user.isSome)
  .ok { url, user, password, nonce := 0, inner_client := inner }

/-- Model of `HttpClient::poll_ready` in the historical variant
(`client.rs` lines 97–99): unconditionally ready, never consulting the
inner client. -/
def HttpClient.pollReady {E : Type} (_svc : InnerService E) :
    Except (Error (ConnectionError E)) Unit :=
  .ok ()

/-- One call to a `RequestBuilder` setter, for reasoning about arbitrary
sequences of setter calls in any order. -/
inductive BuilderOp where
  | method (m : String) : BuilderOp
  | id (i : Json) : BuilderOp
  | params (p : Json) : BuilderOp
  | jsonrpc (v : String) : BuilderOp

/-- Apply one setter call to a builder (dispatching to the setter models
above). -/
def applyOp (b : RequestBuilder) : BuilderOp → RequestBuilder
  | .method m => b.setMethod m
  | .id i => b.setId i
  | .params p => b.setParams p
  | .jsonrpc v => b.setJsonrpc v

/-- The builder obtained from `Request::build()` followed by an arbitrary
sequence of setter calls. -/
def applyOps (ops : List BuilderOp) : RequestBuilder :=
  ops.foldl applyOp Request.build

/-- Whether the sequence of setter calls ever sets `method`. -/
def hasMethodOp (ops : List BuilderOp) : Bool :=
  ops.any fun op => match op with | .method _ => true | _ => false

/-- Whether the sequence of setter calls ever sets `id`. -/
def hasIdOp (ops : List BuilderOp) : Bool :=
  ops.any fun op => match op with | .id _ => true | _ => false

/-- Whether the sequence of setter calls ever sets `params`. -/
def hasParamsOp (ops : List BuilderOp) : Bool :=
  ops.any fun op => match op with | .params _ => true | _ => false

/-- Whether the sequence of setter calls ever sets `jsonrpc`. -/
def hasJsonrpcOp (ops : List BuilderOp) : Bool :=
  ops.any fun op => match op with | .jsonrpc _ => true | _ => false

/-- The JSON document tree printed for a `Request` by the derived
`Serialize` implementation: an object with the four field names in
declaration order. -/
def requestJson (r : Request) : Json :=
  .obj [("method", .str r.method), ("params", r.params),
        ("id", r.id), ("jsonrpc", .str r.jsonrpc)]

/-- Modelled from the spec: `Request` in `objects.rs` derives only
`Serialize`, so the decoder exercised by the spec's round-trip sentence is
not in src.  This is the standard serde-derive field decoding the spec
implies: look up each field by name (order-independent, unknown fields
ignored), requiring `method` and `jsonrpc` to be strings and all four
fields to be present. -/
def requestFromJson (j : Json) : Option Request :=
  match j with
  | .obj fields =>
    match fields.lookup "method", fields.lookup "params",
          fields.lookup "id", fields.lookup "jsonrpc" with
    | some (.str m), some p, some i, some (.str v) =>
      some { method := m, params := p, id := i, jsonrpc := v }
    | _, _, _, _ => none
  | _ => none

/-- A concrete well-formed request, for instantiating theorems. -/
def witnessRequest : Request :=
  { method := "getinfo", params := .null, id := .num 1, jsonrpc := "2.0" }

/-- Concrete credentials with both user and password configured. -/
def witnessCredentials : Credentials :=
  { url := "http://localhost:8332", user := some "alice", password := some "secret" }

/-- A transport whose readiness check fails (connection refused). -/
def refusedService : InnerService String :=
  { readiness := .error "connection refused", respond := fun _ => .error "connection refused" }

/-- A ready transport that answers every request with malformed (non-JSON)
bytes. -/
def malformedService : InnerService String :=
  { readiness := .ok (), respond := fun _ => .ok { body := .ok (stringUtf8 "garbage") } }

/-- A deserializer that rejects its input, as `serde_json::from_slice` does
on malformed bytes. -/
def failingDes : List UInt8 → Except JsonError Response :=
  fun _ => .error { msg := "expected value at line 1 column 1" }

/-- A concrete `serde_json::from_value::<i64>`-style decoder. -/
def intFromJson : Json → Except JsonError Int :=
  fun j => match j with
    | .num n => .ok n
    | _ => .error { msg := "invalid type" }

/-- A response carrying only a result. -/
def resultResponse : Response :=
  { result := some (.num 7), error := none, id := .num 1, jsonrpc := some "2.0" }

/-- A response carrying only an error. -/
def errorResponse : Response :=
  { result := none,
    error := some { code := -32601, message := "Method not found", data := none },
    id := .num 1, jsonrpc := some "2.0" }

/-! Helper lemmas. -/

theorem exceptMapM_ok {α β : Type} (f : α → Except String β) (l : List α)
    (h : ∀ a ∈ l, ∃ b, f a = .ok b) : ∃ bs, l.mapM f = .ok bs := by
  induction l with
  | nil => exact ⟨[], rfl⟩
  | cons a l ih =>
    obtain ⟨b, hb⟩ := h a (by simp)
    obtain ⟨bs, hbs⟩ := ih (fun x hx => h x (by simp [hx]))
    refine ⟨b :: bs, ?_⟩
    rw [List.mapM_cons, hb, hbs]
    rfl

theorem serializeSer_json_ok (j : Json) : ∃ s, serializeSer (serValueOfJson j) = .ok s := by
  generalize hN : sizeOf j = N
  induction N using Nat.strong_induction_on generalizing j with
  | _ N ih =>
  subst hN
  cases j with
  | null => exact ⟨"null", by simp [serValueOfJson, serializeSer]⟩
  | bool b => exact ⟨if b then "true" else "false", by simp [serValueOfJson, serializeSer]⟩
  | num n => exact ⟨toString n, by simp [serValueOfJson, serializeSer]⟩
  | str s => exact ⟨escapeJsonString s, by simp [serValueOfJson, serializeSer]⟩
  | arr xs =>
    rw [serValueOfJson]
    rw [serializeSer]
    have hmem : ∀ y ∈ (xs.attach.map fun x : {x // x ∈ xs} => serValueOfJson x.1).attach,
        ∃ b, serializeSer y.1 = .ok b := by
      rintro ⟨y, hy⟩ -
      obtain ⟨⟨x, hx⟩, -, hxy⟩ := List.mem_map.mp hy
      have hlt : sizeOf x < sizeOf (Json.arr xs) := by
        have := List.sizeOf_lt_of_mem hx
        simp
        omega
      obtain ⟨s, hs⟩ := ih (sizeOf x) hlt x rfl
      exact ⟨s, by simpa [← hxy] using hs⟩
    obtain ⟨parts, hparts⟩ := exceptMapM_ok _ _ hmem
    rw [hparts]
    exact ⟨_, rfl⟩
  | obj fs =>
    rw [serValueOfJson]
    rw [serializeSer]
    have hmem : ∀ y ∈ (fs.attach.map fun kv : {kv // kv ∈ fs} =>
          ((SerValue.str kv.1.1, serValueOfJson kv.1.2) : SerValue × SerValue)).attach,
        ∃ b, (match y.1.1 with
          | SerValue.str k => do
            let vs ← serializeSer y.1.2
            pure (escapeJsonString k ++ ":" ++ vs)
          | _ => (Except.error "key must be a string" : Except String String)) = Except.ok b := by
      rintro ⟨y, hy⟩ -
      obtain ⟨⟨kv, hkv⟩, -, hky⟩ := List.mem_map.mp hy
      have hlt : sizeOf kv.2 < sizeOf (Json.obj fs) := by
        have h1 := List.sizeOf_lt_of_mem hkv
        have h2 : sizeOf kv.2 < sizeOf kv := by
          cases kv
          simp
        simp
        omega
      obtain ⟨sv, hsv⟩ := ih (sizeOf kv.2) hlt kv.2 rfl
      refine ⟨escapeJsonString kv.1 ++ ":" ++ sv, ?_⟩
      subst hky
      show (do
        let vs ← serializeSer (serValueOfJson kv.2)
        pure (escapeJsonString kv.1 ++ ":" ++ vs) : Except String String) = _
      rw [hsv]
      rfl
    obtain ⟨parts, hparts⟩ := exceptMapM_ok _ _ hmem
    rw [hparts]
    exact ⟨_, rfl⟩

theorem requestToSer_eq (r : Request) : requestToSer r = serValueOfJson (requestJson r) := by
  simp [serValueOfJson, requestJson, requestToSer, List.attach, List.attachWith, List.pmap]

theorem nonceAfter_eq (n : Nat) : nonceAfter n = n % USIZE_MOD := by
  induction n with
  | zero => rfl
  | succ n ih =>
    show (nonceAfter n + 1) % USIZE_MOD = (n + 1) % USIZE_MOD
    rw [ih, Nat.add_mod n 1 USIZE_MOD]
    rfl

theorem foldl_method_isSome (ops : List BuilderOp) (b : RequestBuilder) :
    ((ops.foldl applyOp b).method).isSome = (b.method.isSome || hasMethodOp ops) := by
  induction ops generalizing b with
  | nil => simp [hasMethodOp]
  | cons op ops ih =>
    rw [List.foldl_cons, ih]
    cases op <;>
      simp [applyOp, hasMethodOp, RequestBuilder.setMethod, RequestBuilder.setId,
        RequestBuilder.setParams, RequestBuilder.setJsonrpc, Bool.or_assoc]

theorem foldl_id_isSome (ops : List BuilderOp) (b : RequestBuilder) :
    ((ops.foldl applyOp b).id).isSome = (b.id.isSome || hasIdOp ops) := by
  induction ops generalizing b with
  | nil => simp [hasIdOp]
  | cons op ops ih =>
    rw [List.foldl_cons, ih]
    cases op <;>
      simp [applyOp, hasIdOp, RequestBuilder.setMethod, RequestBuilder.setId,
        RequestBuilder.setParams, RequestBuilder.setJsonrpc, Bool.or_assoc]

theorem foldl_params_of_not (ops : List BuilderOp) (b : RequestBuilder)
    (h : hasParamsOp ops = false) : (ops.foldl applyOp b).params = b.params := by
  induction ops generalizing b with
  | nil => rfl
  | cons op ops ih =>
    rw [List.foldl_cons]
    simp [hasParamsOp] at h
    cases op with
    | params p => simp at h
    | method m =>
      rw [ih _ (by simp [hasParamsOp]; exact h.2)]
      rfl
    | id i =>
      rw [ih _ (by simp [hasParamsOp]; exact h.2)]
      rfl
    | jsonrpc v =>
      rw [ih _ (by simp [hasParamsOp]; exact h.2)]
      rfl

theorem foldl_jsonrpc_of_not (ops : List BuilderOp) (b : RequestBuilder)
    (h : hasJsonrpcOp ops = false) : (ops.foldl applyOp b).json_rpc = b.json_rpc := by
  induction ops generalizing b with
  | nil => rfl
  | cons op ops ih =>
    rw [List.foldl_cons]
    simp [hasJsonrpcOp] at h
    cases op with
    | jsonrpc v => simp at h
    | method m =>
      rw [ih _ (by simp [hasJsonrpcOp]; exact h.2)]
      rfl
    | id i =>
      rw [ih _ (by simp [hasJsonrpcOp]; exact h.2)]
      rfl
    | params p =>
      rw [ih _ (by simp [hasJsonrpcOp]; exact h.2)]
      rfl

theorem finish_spec (b : RequestBuilder) :
    (b.finish.isOk = (b.method.isSome && b.id.isSome)) ∧
    (∀ r, b.finish = .ok r →
      r.params = b.params.getD Json.null ∧ r.jsonrpc = b.json_rpc.getD "2.0") ∧
    ((b.method.isSome && b.id.isSome) = false → b.finish = .error ⟨⟩) := by
  obtain ⟨i, m, p, v⟩ := b
  cases i <;> cases m <;> cases p <;> cases v <;>
    simp [RequestBuilder.finish, Except.isOk, Except.toBool]

theorem send_eq {E : Type} (des : List UInt8 → Except JsonError Response)
    (credentials : Credentials) (svc : InnerService E) (request : Request) :
    Client.send des credentials svc request =
      match svc.readiness with
      | .error e => (.error (.connection (.poll e)), [])
      | .ok _ =>
        (match svc.respond (makeHttpRequest credentials request) with
         | .error e => .error (.connection (.service e))
         | .ok resp =>
           match resp.body with
           | .error be => .error (.connection (.body be))
           | .ok bytes =>
             match des bytes with
             | .error je => .error (.json je)
             | .ok r => .ok r,
         [makeHttpRequest credentials request]) := by
  unfold Client.send Client.pollReady Client.call
  cases svc.readiness <;> simp [Except.mapError]

/-! Claim theorems. -/

/-- C1, amended: ids issued by `build_request` are strictly increasing (hence
pairwise distinct) for call indices below `2 ^ 64`; in general the `k`-th
id is `k mod 2 ^ 64` because `fetch_add` wraps modulo `2 ^ 64`; the id
placed into the returned builder is exactly the fetch-and-increment value;
each call advances the counter by one modulo `2 ^ 64` (never resetting or
decrementing it otherwise), and `next_nonce` leaves the counter
unchanged. -/
theorem claim_C1_nonce_ids :
    (∀ i j, i < j → j < USIZE_MOD → idOfCall i < idOfCall j) ∧
    (∀ k, idOfCall k = k % USIZE_MOD) ∧
    (∀ k, (builderOfCall k).id = some (Json.num (Int.ofNat (idOfCall k)))) ∧
    (∀ s : ClientState, ((ClientState.buildRequest s).2).nonce = (s.nonce + 1) % USIZE_MOD) ∧
    (∀ s : ClientState, (ClientState.nextNonce s).2 = s) := by
  have hk : ∀ k, idOfCall k = k % USIZE_MOD := by
    intro k
    show nonceAfter k = k % USIZE_MOD
    exact nonceAfter_eq k
  refine ⟨?_, hk, ?_, ?_, ?_⟩
  · intro i j hij hj
    rw [hk i, hk j, Nat.mod_eq_of_lt (lt_trans hij hj), Nat.mod_eq_of_lt hj]
    exact hij
  · intro k
    rfl
  · intro s
    rfl
  · intro s
    rfl

/-- C1, counterexample to the claim as stated: the ids are not pairwise
distinct over every sequence of `build_request` calls — the call with index
`2 ^ 64` receives the same id as the call with index `0`, because
`fetch_add` wraps around on overflow. -/
theorem claim_C1_counterexample :
    idOfCall USIZE_MOD = idOfCall 0 ∧ 0 < USIZE_MOD := by
  constructor
  · show nonceAfter USIZE_MOD = nonceAfter 0
    rw [nonceAfter_eq, nonceAfter_eq, Nat.mod_self, Nat.zero_mod]
  · decide

/-- Witness for C1: concrete instance of the strict-increase part. -/
theorem claim_C1_witness : idOfCall 0 < idOfCall 1 :=
  claim_C1_nonce_ids.1 0 1 (by decide) (by decide)

/-- C2: for every sequence of setter calls on a fresh builder, `finish`
returns `Ok` iff both `method` and `id` were set (in any order, any number
of times); in the `Ok` case `params` defaults to JSON null and `jsonrpc`
defaults to `"2.0"` when never set; otherwise `finish` returns
`Err(IncompleteRequest)`. -/
theorem claim_C2_finish (ops : List BuilderOp) :
    ((applyOps ops).finish.isOk = (hasMethodOp ops && hasIdOp ops)) ∧
    (∀ r, (applyOps ops).finish = .ok r →
      (hasParamsOp ops = false → r.params = Json.null) ∧
      (hasJsonrpcOp ops = false → r.jsonrpc = "2.0")) ∧
    ((hasMethodOp ops && hasIdOp ops) = false → (applyOps ops).finish = .error ⟨⟩) := by
  have hb := finish_spec (applyOps ops)
  have hm : (applyOps ops).method.isSome = hasMethodOp ops := by
    simpa [applyOps, Request.build, RequestBuilder.default] using
      foldl_method_isSome ops Request.build
  have hid : (applyOps ops).id.isSome = hasIdOp ops := by
    simpa [applyOps, Request.build, RequestBuilder.default] using
      foldl_id_isSome ops Request.build
  refine ⟨?_, ?_, ?_⟩
  · rw [hb.1, hm, hid]
  · intro r hr
    have hfields := hb.2.1 r hr
    constructor
    · intro hp
      rw [hfields.1]
      have hkeep : (applyOps ops).params = RequestBuilder.default.params :=
        foldl_params_of_not ops Request.build hp
      rw [hkeep]
      rfl
    · intro hv
      rw [hfields.2]
      have hkeep : (applyOps ops).json_rpc = RequestBuilder.default.json_rpc :=
        foldl_jsonrpc_of_not ops Request.build hv
      rw [hkeep]
      rfl
  · intro hfalse
    exact hb.2.2 (by rw [hm, hid]; exact hfalse)

/-- Witness for C2: method and id set, so `finish` succeeds, with defaulted
params and version. -/
theorem claim_C2_witness :
    (applyOps [BuilderOp.method "getinfo", BuilderOp.id (Json.num 1)]).finish.isOk = true ∧
    Request.params { method := "getinfo", params := Json.null, id := Json.num 1, jsonrpc := "2.0" } = Json.null ∧
    Request.jsonrpc { method := "getinfo", params := Json.null, id := Json.num 1, jsonrpc := "2.0" } = "2.0" := by
  have h := claim_C2_finish [BuilderOp.method "getinfo", BuilderOp.id (Json.num 1)]
  have hok : (applyOps [BuilderOp.method "getinfo", BuilderOp.id (Json.num 1)]).finish
      = .ok { method := "getinfo", params := Json.null, id := Json.num 1, jsonrpc := "2.0" } := rfl
  have h2 := h.2.1 _ hok
  refine ⟨?_, h2.1 rfl, h2.2 rfl⟩
  rw [h.1]
  rfl

/-- C3: the outbound HTTP message always carries
`Content-Type: application/json`; it carries an `Authorization` header iff
the client's user credential is set; when present, the value is
`Basic base64(user:password)` with an empty password default. -/
theorem claim_C3_headers (credentials : Credentials) (request : Request) :
    (("content-type", "application/json") ∈ (makeHttpRequest credentials request).headers) ∧
    ((∃ v, ("authorization", v) ∈ (makeHttpRequest credentials request).headers)
      ↔ credentials.user.isSome = true) ∧
    (∀ u, credentials.user = some u →
      ("authorization",
        "Basic " ++ base64Encode (stringUtf8 (u ++ ":" ++ credentials.password.getD "")))
        ∈ (makeHttpRequest credentials request).headers) := by
  obtain ⟨url, user, password⟩ := credentials
  cases user <;> cases password <;>
    simp [makeHttpRequest, Option.getD]

/-- Witness for C3: with user `alice` and password `secret`, the message
carries the content type and `Basic YWxpY2U6c2VjcmV0`. -/
theorem claim_C3_witness :
    ("content-type", "application/json") ∈ (makeHttpRequest witnessCredentials witnessRequest).headers ∧
    ("authorization", "Basic YWxpY2U6c2VjcmV0") ∈ (makeHttpRequest witnessCredentials witnessRequest).headers := by
  have h := claim_C3_headers witnessCredentials witnessRequest
  refine ⟨h.1, ?_⟩
  have h3 := h.2.2 "alice" rfl
  have heq : "Basic " ++ base64Encode (stringUtf8 ("alice" ++ ":" ++ (witnessCredentials.password.getD "")))
      = "Basic YWxpY2U6c2VjcmV0" := by decide
  rw [heq] at h3
  exact h3

/-- C4: every error surfaced by the single-call path is a `Connection` or a
`Json` variant — readiness, service and body failures are wrapped as
`Connection`, a deserialization failure (e.g. malformed non-JSON bytes) is
wrapped as `Json`, and the batch- and nonce-verification variants are never
produced. -/
theorem claim_C4_error_taxonomy {E : Type} (des : List UInt8 → Except JsonError Response)
    (credentials : Credentials) (svc : InnerService E) (request : Request) :
    (∀ err, (Client.send des credentials svc request).1 = .error err →
      (∃ e, err = Error.connection e) ∨ (∃ e, err = Error.json e)) ∧
    (∀ e, svc.readiness = .ok () →
      svc.respond (makeHttpRequest credentials request) = .error e →
      (Client.send des credentials svc request).1 = .error (.connection (.service e))) ∧
    (∀ resp be, svc.readiness = .ok () →
      svc.respond (makeHttpRequest credentials request) = .ok resp →
      resp.body = .error be →
      (Client.send des credentials svc request).1 = .error (.connection (.body be))) ∧
    (∀ resp bytes je, svc.readiness = .ok () →
      svc.respond (makeHttpRequest credentials request) = .ok resp →
      resp.body = .ok bytes → des bytes = .error je →
      (Client.send des credentials svc request).1 = .error (.json je)) := by
  refine ⟨?_, ?_, ?_, ?_⟩
  · intro err herr
    rw [send_eq] at herr
    cases hready : svc.readiness with
    | error e =>
      rw [hready] at herr
      simp at herr
      exact Or.inl ⟨_, herr.symm⟩
    | ok u =>
      rw [hready] at herr
      simp at herr
      cases hresp : svc.respond (makeHttpRequest credentials request) with
      | error e =>
        rw [hresp] at herr
        simp at herr
        exact Or.inl ⟨_, herr.symm⟩
      | ok resp =>
        rw [hresp] at herr
        simp at herr
        cases hbody : resp.body with
        | error be =>
          rw [hbody] at herr
          simp at herr
          exact Or.inl ⟨_, herr.symm⟩
        | ok bytes =>
          rw [hbody] at herr
          simp at herr
          cases hdes : des bytes with
          | error je =>
            rw [hdes] at herr
            simp at herr
            exact Or.inr ⟨_, herr.symm⟩
          | ok r =>
            rw [hdes] at herr
            simp at herr
  · intro e hready hresp
    rw [send_eq]
    simp [hready, hresp]
  · intro resp be hready hresp hbody
    rw [send_eq]
    simp [hready, hresp, hbody]
  · intro resp bytes je hready hresp hbody hdes
    rw [send_eq]
    simp [hready, hresp, hbody, hdes]

/-- Witness for C4: a ready transport returning malformed bytes yields a
`Json` error (and no panic — the pipeline is a total function). -/
theorem claim_C4_witness :
    (Client.send failingDes { url := "http://localhost:8332", user := none, password := none }
      malformedService witnessRequest).1
      = .error (.json { msg := "expected value at line 1 column 1" }) :=
  (claim_C4_error_taxonomy failingDes
      { url := "http://localhost:8332", user := none, password := none }
      malformedService witnessRequest).2.2.2
    { body := .ok (stringUtf8 "garbage") } (stringUtf8 "garbage")
    { msg := "expected value at line 1 column 1" } rfl rfl rfl rfl

/-- C5: `send` (tower `oneshot`) waits for transport readiness before
dispatching; a readiness failure is propagated as a `Connection` error and
nothing is dispatched to the transport. -/
theorem claim_C5_ready_failure {E : Type} (des : List UInt8 → Except JsonError Response)
    (credentials : Credentials) (svc : InnerService E) (request : Request) (e : E)
    (h : svc.readiness = .error e) :
    Client.send des credentials svc request = (.error (.connection (.poll e)), []) := by
  rw [send_eq, h]

/-- Witness for C5: a connection-refused readiness failure surfaces as
`Connection(Poll(..))` with an empty dispatch log. -/
theorem claim_C5_witness :
    Client.send failingDes { url := "http://localhost:8332", user := none, password := none }
      refusedService witnessRequest
      = (.error (.connection (.poll "connection refused")), []) :=
  claim_C5_ready_failure failingDes _ refusedService witnessRequest "connection refused" rfl

/-- C6, code bug: the claim (from the spec) says a password without a user
must be rejected or asserted against, but `Client::from_service` — and the
`new`/`new_tls` built on it — perform no check at all and silently accept
such credentials; only the historical `client.rs` `HttpClient::new`
debug-asserts the contract (and only in debug builds). -/
theorem claim_C6_no_construction_check :
    (Client.fromService () "http://localhost:8332" none (some "secret")
      = .ok { credentials := { url := "http://localhost:8332", user := none, password := some "secret" },
              nonce := 0, inner_service := () }) ∧
    (Client.newModel "http://localhost:8332" none (some "secret")
      = .ok { credentials := { url := "http://localhost:8332", user := none, password := some "secret" },
              nonce := 0, inner_service := () }) ∧
    (HttpClient.newModel true () "http://localhost:8332" none (some "secret")
      = .error "debug assertion failed") :=
  ⟨rfl, rfl, rfl⟩

/-- C7: serializing any builder-produced (hence well-formed) `Request`
never fails — the `key must be a string` failure branch behind the
serialization `unwrap` in `call` is unreachable, since every map the
derived implementation emits has string keys. -/
theorem claim_C7_serialization_infallible (r : Request) : ∃ s, requestToVec r = .ok s := by
  rw [requestToVec, requestToSer_eq]
  exact serializeSer_json_ok (requestJson r)

/-- C8: a response with only `result` set reports `is_result`, not
`is_error`, and `into_result` returns `Some` of the decoded result; a
response with only `error` set reports the converse and `into_result`
returns `None`. -/
theorem claim_C8_response_predicates (r : Response) :
    (∀ v, r.result = some v → r.error = none →
      r.isResult = true ∧ r.isError = false ∧
      ∀ (T : Type) (dec : Json → Except JsonError T), r.intoResult dec = some (dec v)) ∧
    (∀ e, r.result = none → r.error = some e →
      r.isResult = false ∧ r.isError = true ∧
      ∀ (T : Type) (dec : Json → Except JsonError T), r.intoResult dec = none) := by
  constructor <;> rintro v h1 h2 <;>
    simp [Response.isResult, Response.isError, Response.intoResult, h1, h2]

/-- Witness for C8: concrete result-only and error-only responses. -/
theorem claim_C8_witness :
    resultResponse.isResult = true ∧ resultResponse.isError = false ∧
    resultResponse.intoResult intFromJson = some (.ok 7) ∧
    errorResponse.isResult = false ∧ errorResponse.isError = true ∧
    errorResponse.intoResult intFromJson = none := by
  have h1 := (claim_C8_response_predicates resultResponse).1 (.num 7) rfl rfl
  have h2 := (claim_C8_response_predicates errorResponse).2
    { code := -32601, message := "Method not found", data := none } rfl rfl
  exact ⟨h1.1, h1.2.1, h1.2.2 Int intFromJson, h2.1, h2.2.1, h2.2.2 Int intFromJson⟩

/-- C9: serializing a `Request` and deserializing the resulting JSON
document back yields a `Request` equal field for field to the original. -/
theorem claim_C9_roundtrip (r : Request) : requestFromJson (requestJson r) = some r := rfl

/-- C10: `next_nonce` performs an atomic load with `Ordering::AcqRel`,
which panics for every client state (an invalid ordering for a load), so it
never returns a value; and it never modifies the nonce counter, contrary to
its `Increment nonce and return the last value` documentation. -/
theorem claim_C10_next_nonce_panics (c : ClientState) :
    (∃ msg, (c.nextNonce).1 = .error msg) ∧ (c.nextNonce).2 = c :=
  ⟨⟨"there is no such thing as an acquire-release load", rfl⟩, rfl⟩

end AsyncJsonRpc
